import Mathlib

/-!
Verification development for `pam.py` (chevah/python-pam).

The module wraps the host's PAM library through ctypes.  Two pieces are
embedded here:

* the conversation callback `my_conv` (pam.py lines 171-183), which
  allocates a response array with the native `calloc`, answers every
  `PAM_PROMPT_ECHO_OFF` message with a `strdup`-ed copy of the password,
  and returns 0;
* the session orchestration `authenticate` (pam.py lines 185-200), which
  calls `pam_start`, on success `pam_authenticate`, and `pam_end` on
  every path, returning `retval == 0 and e == 0`.

Native memory is modelled with addresses as natural numbers, 0 standing
for the NULL pointer.  The native allocator hands out fresh nonzero
addresses from a counter.  The PAM primitives themselves are external
native code and are modelled as oracle functions bundled in `PamLib`;
`authenticate` additionally records the sequence of native calls it
performs, so ordering and call-count properties can be stated.
-/

/-! ## Constants (pam.py lines 95-98) -/

def PAM_PROMPT_ECHO_OFF : Int := 1

def PAM_PROMPT_ECHO_ON : Int := 2

def PAM_ERROR_MSG : Int := 3

def PAM_TEXT_INFO : Int := 4

/-! ## Data model -/

/-- `pam_message` (pam.py lines 112-117): a style tag and a native-owned
byte string.  Byte strings are lists of naturals. -/
structure PamMessage where
  msg_style : Int
  msg : List Nat
deriving DecidableEq

/-- The value `messages.getD i` falls back to when `i` is out of range;
never reached in the embedding since the loop runs over valid indices. -/
def defaultMessage : PamMessage := ⟨0, []⟩

/-- `pam_response` (pam.py lines 123-128): `resp` is the address of the
response text (0 = NULL), `resp_retcode` the per-message return code. -/
structure PamResponse where
  resp : Nat
  resp_retcode : Int
deriving DecidableEq

/-- A `pam_response` slot as `calloc` zero-initializes it. -/
def zeroedResponse : PamResponse := ⟨0, 0⟩

/-- State of the native allocator: `next` is the last address handed
out (fresh addresses are `next + 1`, hence nonzero), `buffers` records
each allocated string buffer as an address/contents pair. -/
structure NativeHeap where
  next : Nat
  buffers : List (Nat × List Nat)
deriving DecidableEq

/-- `strdup` (pam.py lines 90-92): copies the byte string into a fresh
buffer owned by the native allocator and returns its (nonzero) address. -/
def STRDUP (h : NativeHeap) (bytes : List Nat) : Nat × NativeHeap :=
  (h.next + 1, ⟨h.next + 1, h.buffers ++ [(h.next + 1, bytes)]⟩)

/-! ## Conversation handler (pam.py lines 171-183) -/

/-- The memory regions `my_conv` touches: the incoming message array
(native-owned, indexed reads only), the contents of the `calloc`-ed
response array, and the allocator state. -/
structure ConvMem where
  messages : List PamMessage
  respArr : List PamResponse
  nheap : NativeHeap
deriving DecidableEq

/-- The ctypes-level failure of the handler: indexing a NULL
`POINTER(PamResponse)` (`p_response.contents[i]` when `calloc`
returned NULL) raises `ValueError: NULL pointer access`. -/
inductive ConvError
  | nullPointerAccess
deriving DecidableEq

/-- One iteration of the loop at pam.py lines 178-182 for index `i`:
if `messages[i].contents.msg_style == PAM_PROMPT_ECHO_OFF`, call
`STRDUP(password)` (line 180) and write the resulting address with
return code 0 into slot `i` of the response array (lines 181-182); the
write dereferences the array pointer, so it faults when `calloc`
returned NULL (`callocAddr = 0`).  Other styles leave the slot alone. -/
def convStep (password : List Nat) (callocAddr : Nat) (i : Nat)
    (mem : ConvMem) : Except ConvError ConvMem :=
  if (mem.messages.getD i defaultMessage).msg_style = PAM_PROMPT_ECHO_OFF then
    let r := STRDUP mem.nheap password
    if callocAddr = 0 then
      Except.error ConvError.nullPointerAccess
    else
      Except.ok { mem with respArr := mem.respArr.set i ⟨r.1, 0⟩, nheap := r.2 }
  else
    Except.ok mem

/-- `for i in range(n_messages)` (pam.py line 178): run `convStep` over
a list of indices, in order, propagating the first failure. -/
def convRun (password : List Nat) (callocAddr : Nat) :
    List Nat → ConvMem → Except ConvError ConvMem
  | [], mem => Except.ok mem
  | i :: js, mem =>
    match convStep password callocAddr i mem with
    | Except.error e => Except.error e
    | Except.ok mem2 => convRun password callocAddr js mem2

/-- What a completed invocation of `my_conv` produced: the status it
returned (line 183), the address written into `p_response[0]`
(line 177), and the final state of the touched memory. -/
structure ConvOk where
  status : Int
  p_response : Nat
  final : ConvMem
deriving DecidableEq

/-- `my_conv` (pam.py lines 171-183).  `callocAddr` is the address the
native `calloc(n_messages, sizeof(PamResponse))` returned (line 176);
0 models a NULL return.  On success the response array holds
`messages.length` slots, zero-initialized except for the answered
password prompts, and the returned status is 0. -/
def my_conv (password : List Nat) (callocAddr : Nat)
    (messages : List PamMessage) (h : NativeHeap) : Except ConvError ConvOk :=
  match convRun password callocAddr (List.range messages.length)
      ⟨messages, List.replicate messages.length zeroedResponse, h⟩ with
  | Except.error e => Except.error e
  | Except.ok mem => Except.ok ⟨0, callocAddr, mem⟩

/-! ## Authentication session (pam.py lines 147-200) -/

/-- One invocation of a native PAM primitive, as `authenticate`
performs it: `pam_start(service, username)`, `pam_authenticate(handle,
flags)`, or `pam_end(handle, status)`. -/
inductive PamCall
  | start : List Nat → List Nat → PamCall
  | auth : Nat → Int → PamCall
  | pamEnd : Nat → Int → PamCall
deriving DecidableEq

/-- The three resolved native primitives, as oracle functions.
`pam_start` returns its status together with the value left in the
`PamHandle` out-parameter; `pam_authenticate` and `pam_end` return
their status. -/
structure PamLib where
  pam_start : List Nat → List Nat → Int × Nat
  pam_authenticate : Nat → Int → Int
  pam_end : Nat → Int → Int

/-- `authenticate` (pam.py lines 161-200), at the session level: call
`PAM_START(service, username, conv, handle)`; if its status is nonzero,
call `PAM_END(handle, status)` and return `False` (lines 192-196);
otherwise call `PAM_AUTHENTICATE(handle, 0)` then `PAM_END(handle,
retval)` and return `retval == 0 and e == 0` (lines 198-200).  The
result is paired with the trace of native calls in execution order.
The conversation callback (closing over `password`) is passed inside
the `PamConv` descriptor and runs inside the native
`pam_authenticate`; it is modelled separately by `my_conv`. -/
def authenticate (lib : PamLib) (username password service : List Nat) :
    Bool × List PamCall :=
  let s := lib.pam_start service username
  let retval := s.1
  let handle := s.2
  if retval ≠ 0 then
    let _e := lib.pam_end handle retval
    (false, [PamCall.start service username, PamCall.pamEnd handle retval])
  else
    let retval2 := lib.pam_authenticate handle 0
    let e := lib.pam_end handle retval2
    (decide (retval2 = 0 ∧ e = 0),
      [PamCall.start service username, PamCall.auth handle 0,
        PamCall.pamEnd handle retval2])

/-- Recognizer for `pam_start` entries of a trace. -/
def isStartCall : PamCall → Bool
  | PamCall.start _ _ => true
  | _ => false

/-- Recognizer for `pam_authenticate` entries of a trace. -/
def isAuthCall : PamCall → Bool
  | PamCall.auth _ _ => true
  | _ => false

/-- Recognizer for `pam_end` entries of a trace. -/
def isEndCall : PamCall → Bool
  | PamCall.pamEnd _ _ => true
  | _ => false

/-! ## Concrete libraries, used by the witnesses -/

/-- A stub native library whose start succeeds with handle 7, whose
authenticate accepts, and whose end succeeds. -/
def libAccept : PamLib :=
  ⟨fun _ _ => (0, 7), fun _ _ => 0, fun _ _ => 0⟩

/-- A stub native library whose start fails with status 4. -/
def libStartFail : PamLib :=
  ⟨fun _ _ => (4, 7), fun _ _ => 0, fun _ _ => 0⟩

/-- A concrete message array: password prompts at indices 0 and 2, an
informational message at index 1. -/
def msgs3 : List PamMessage := [⟨1, [65]⟩, ⟨4, [66]⟩, ⟨1, []⟩]

/-- The outcome of `my_conv [112] 5 msgs3 ⟨0, []⟩`: both prompts got
fresh buffers 1 and 2 holding the password bytes, the info slot stayed
zeroed. -/
def outc3 : ConvOk :=
  ⟨0, 5, ⟨msgs3, [⟨1, 0⟩, ⟨0, 0⟩, ⟨2, 0⟩],
    ⟨2, [(1, [112]), (2, [112])]⟩⟩⟩

/-! ## Session theorems -/

/-- C1: when the native start primitive returns 0, `authenticate`
returns true iff both the native authenticate primitive's status and
the native end primitive's status (applied to that authenticate status)
are 0; in particular a nonzero end status after a successful
authenticate yields overall false. -/
theorem authenticate_success_iff (lib : PamLib)
    (username password service : List Nat)
    (h : (lib.pam_start service username).1 = 0) :
    (authenticate lib username password service).1 = true ↔
      (lib.pam_authenticate (lib.pam_start service username).2 0 = 0 ∧
        lib.pam_end (lib.pam_start service username).2
          (lib.pam_authenticate (lib.pam_start service username).2 0) = 0) := by
  simp [authenticate, h]

/-- Witness for C1 at a concrete accepting stub library. -/
theorem authenticate_success_iff_witness :
    (libAccept.pam_start [3] [1]).1 = 0 ∧
      ((authenticate libAccept [1] [2] [3]).1 = true ↔
        (libAccept.pam_authenticate (libAccept.pam_start [3] [1]).2 0 = 0 ∧
          libAccept.pam_end (libAccept.pam_start [3] [1]).2
            (libAccept.pam_authenticate
              (libAccept.pam_start [3] [1]).2 0) = 0)) :=
  ⟨rfl, authenticate_success_iff libAccept [1] [2] [3] rfl⟩

/-- C2: when the native start primitive returns a nonzero status,
`authenticate` performs no `pam_authenticate` call, performs exactly
one `pam_end` call with the handle and that start status, and returns
false: its whole run is the two-call trace `[start, pam_end]`. -/
theorem authenticate_start_failure (lib : PamLib)
    (username password service : List Nat)
    (h : (lib.pam_start service username).1 ≠ 0) :
    authenticate lib username password service =
      (false, [PamCall.start service username,
        PamCall.pamEnd (lib.pam_start service username).2
          (lib.pam_start service username).1]) ∧
      (authenticate lib username password service).2.countP
        (fun c => isAuthCall c) = 0 ∧
      (authenticate lib username password service).2.countP
        (fun c => isEndCall c) = 1 := by
  refine ⟨?_, ?_, ?_⟩ <;> simp [authenticate, h, isAuthCall, isEndCall]

/-- Witness for C2 at a concrete stub library failing start with 4. -/
theorem authenticate_start_failure_witness :
    (libStartFail.pam_start [3] [1]).1 ≠ 0 ∧
      (authenticate libStartFail [1] [2] [3] =
        (false, [PamCall.start [3] [1],
          PamCall.pamEnd (libStartFail.pam_start [3] [1]).2
            (libStartFail.pam_start [3] [1]).1]) ∧
        (authenticate libStartFail [1] [2] [3]).2.countP
          (fun c => isAuthCall c) = 0 ∧
        (authenticate libStartFail [1] [2] [3]).2.countP
          (fun c => isEndCall c) = 1) :=
  ⟨by decide, authenticate_start_failure libStartFail [1] [2] [3] (by decide)⟩

/-- C4: on every path `authenticate` calls `pam_end` exactly once and
`pam_start` exactly once, and its trace is one of the two shapes fixed
by the code: start failed and `pam_end` got the start status, or start
succeeded, `pam_authenticate` ran once after it, and `pam_end` got the
authenticate status. -/
theorem authenticate_end_exactly_once (lib : PamLib)
    (username password service : List Nat) :
    (authenticate lib username password service).2.countP
      (fun c => isEndCall c) = 1 ∧
    (authenticate lib username password service).2.countP
      (fun c => isStartCall c) =
      (authenticate lib username password service).2.countP
        (fun c => isEndCall c) ∧
    (((lib.pam_start service username).1 ≠ 0 ∧
      (authenticate lib username password service).2 =
        [PamCall.start service username,
          PamCall.pamEnd (lib.pam_start service username).2
            (lib.pam_start service username).1]) ∨
      ((lib.pam_start service username).1 = 0 ∧
        (authenticate lib username password service).2 =
          [PamCall.start service username,
            PamCall.auth (lib.pam_start service username).2 0,
            PamCall.pamEnd (lib.pam_start service username).2
              (lib.pam_authenticate
                (lib.pam_start service username).2 0)])) := by
  by_cases h : (lib.pam_start service username).1 = 0
  · exact ⟨by simp [authenticate, h, isEndCall],
      by simp [authenticate, h, isStartCall, isEndCall],
      Or.inr ⟨h, by simp [authenticate, h]⟩⟩
  · exact ⟨by simp [authenticate, h, isEndCall],
      by simp [authenticate, h, isStartCall, isEndCall],
      Or.inl ⟨h, by simp [authenticate, h]⟩⟩

/-! ## Step lemmas for the conversation loop -/

/-- A successful loop iteration never writes to the message array. -/
theorem convStep_messages (pw : List Nat) (c i : Nat) (mem mem2 : ConvMem)
    (h : convStep pw c i mem = Except.ok mem2) :
    mem2.messages = mem.messages := by
  unfold convStep at h
  split at h
  · split at h
    · simp at h
    · simp only [Except.ok.injEq] at h
      subst h
      rfl
  · simp only [Except.ok.injEq] at h
    subst h
    rfl

/-- A successful loop iteration preserves the response array length. -/
theorem convStep_length (pw : List Nat) (c i : Nat) (mem mem2 : ConvMem)
    (h : convStep pw c i mem = Except.ok mem2) :
    mem2.respArr.length = mem.respArr.length := by
  unfold convStep at h
  split at h
  · split at h
    · simp at h
    · simp only [Except.ok.injEq] at h
      subst h
      simp
  · simp only [Except.ok.injEq] at h
    subst h
    rfl

/-- The allocator counter never decreases across a loop iteration. -/
theorem convStep_next_le (pw : List Nat) (c i : Nat) (mem mem2 : ConvMem)
    (h : convStep pw c i mem = Except.ok mem2) :
    mem.nheap.next ≤ mem2.nheap.next := by
  unfold convStep at h
  split at h
  · split at h
    · simp at h
    · simp only [Except.ok.injEq] at h
      subst h
      exact Nat.le_succ _
  · simp only [Except.ok.injEq] at h
    subst h
    exact Nat.le_refl _

/-- Buffers already allocated survive a loop iteration. -/
theorem convStep_buffers_mono (pw : List Nat) (c i : Nat) (mem mem2 : ConvMem)
    (b : Nat × List Nat) (h : convStep pw c i mem = Except.ok mem2)
    (hb : b ∈ mem.nheap.buffers) : b ∈ mem2.nheap.buffers := by
  unfold convStep at h
  split at h
  · split at h
    · simp at h
    · simp only [Except.ok.injEq] at h
      subst h
      exact List.mem_append_left _ hb
  · simp only [Except.ok.injEq] at h
    subst h
    exact hb

/-- A loop iteration for index `i` leaves every other slot unchanged. -/
theorem convStep_getD_ne (pw : List Nat) (c i j : Nat) (mem mem2 : ConvMem)
    (h : convStep pw c i mem = Except.ok mem2) (hij : j ≠ i) :
    mem2.respArr.getD j zeroedResponse = mem.respArr.getD j zeroedResponse := by
  unfold convStep at h
  split at h
  · split at h
    · simp at h
    · simp only [Except.ok.injEq] at h
      subst h
      simp [List.getD_eq_getElem?_getD, List.getElem?_set_ne (Ne.symm hij)]
  · simp only [Except.ok.injEq] at h
    subst h
    rfl

/-- Every stored response address stays bounded by the allocator
counter across a loop iteration. -/
theorem convStep_bound (pw : List Nat) (c i : Nat) (mem mem2 : ConvMem)
    (h : convStep pw c i mem = Except.ok mem2)
    (hb : ∀ r ∈ mem.respArr, r.resp ≤ mem.nheap.next) :
    ∀ r ∈ mem2.respArr, r.resp ≤ mem2.nheap.next := by
  unfold convStep at h
  split at h
  · split at h
    · simp at h
    · simp only [Except.ok.injEq] at h
      subst h
      intro r hr
      rcases List.mem_or_eq_of_mem_set hr with hr' | hr'
      · exact Nat.le_trans (hb r hr') (Nat.le_succ _)
      · subst hr'
        exact Nat.le_refl _
  · simp only [Except.ok.injEq] at h
    subst h
    exact hb

/-! ## Run lemmas for the conversation loop -/

/-- Unfolding a successful run on a nonempty index list. -/
theorem convRun_cons (pw : List Nat) (c i : Nat) (js : List Nat)
    (mem mem2 : ConvMem) (h : convRun pw c (i :: js) mem = Except.ok mem2) :
    ∃ m1, convStep pw c i mem = Except.ok m1 ∧
      convRun pw c js m1 = Except.ok mem2 := by
  unfold convRun at h
  split at h
  · simp at h
  · rename_i m1 heq
    exact ⟨m1, heq, h⟩

/-- Splitting a successful run over an appended index list. -/
theorem convRun_append_ok (pw : List Nat) (c : Nat) (js1 js2 : List Nat)
    (mem mem2 : ConvMem)
    (h : convRun pw c (js1 ++ js2) mem = Except.ok mem2) :
    ∃ m1, convRun pw c js1 mem = Except.ok m1 ∧
      convRun pw c js2 m1 = Except.ok mem2 := by
  induction js1 generalizing mem with
  | nil => exact ⟨mem, rfl, h⟩
  | cons i js ih =>
    obtain ⟨m1, hs, hrest⟩ := convRun_cons pw c i (js ++ js2) mem mem2 h
    obtain ⟨m2, h1, h2⟩ := ih m1 hrest
    refine ⟨m2, ?_, h2⟩
    unfold convRun
    rw [hs]
    exact h1

/-- A successful run never writes to the message array. -/
theorem convRun_messages (pw : List Nat) (c : Nat) (js : List Nat)
    (mem mem2 : ConvMem) (h : convRun pw c js mem = Except.ok mem2) :
    mem2.messages = mem.messages := by
  induction js generalizing mem with
  | nil =>
    simp only [convRun, Except.ok.injEq] at h
    subst h
    rfl
  | cons i js ih =>
    obtain ⟨m1, hs, hrest⟩ := convRun_cons pw c i js mem mem2 h
    exact (ih m1 hrest).trans (convStep_messages pw c i mem m1 hs)

/-- A successful run preserves the response array length. -/
theorem convRun_length (pw : List Nat) (c : Nat) (js : List Nat)
    (mem mem2 : ConvMem) (h : convRun pw c js mem = Except.ok mem2) :
    mem2.respArr.length = mem.respArr.length := by
  induction js generalizing mem with
  | nil =>
    simp only [convRun, Except.ok.injEq] at h
    subst h
    rfl
  | cons i js ih =>
    obtain ⟨m1, hs, hrest⟩ := convRun_cons pw c i js mem mem2 h
    exact (ih m1 hrest).trans (convStep_length pw c i mem m1 hs)

/-- The allocator counter never decreases across a run. -/
theorem convRun_next_le (pw : List Nat) (c : Nat) (js : List Nat)
    (mem mem2 : ConvMem) (h : convRun pw c js mem = Except.ok mem2) :
    mem.nheap.next ≤ mem2.nheap.next := by
  induction js generalizing mem with
  | nil =>
    simp only [convRun, Except.ok.injEq] at h
    subst h
    exact Nat.le_refl _
  | cons i js ih =>
    obtain ⟨m1, hs, hrest⟩ := convRun_cons pw c i js mem mem2 h
    exact Nat.le_trans (convStep_next_le pw c i mem m1 hs) (ih m1 hrest)

/-- Buffers already allocated survive a run. -/
theorem convRun_buffers_mono (pw : List Nat) (c : Nat) (js : List Nat)
    (mem mem2 : ConvMem) (b : Nat × List Nat)
    (h : convRun pw c js mem = Except.ok mem2)
    (hb : b ∈ mem.nheap.buffers) : b ∈ mem2.nheap.buffers := by
  induction js generalizing mem with
  | nil =>
    simp only [convRun, Except.ok.injEq] at h
    subst h
    exact hb
  | cons i js ih =>
    obtain ⟨m1, hs, hrest⟩ := convRun_cons pw c i js mem mem2 h
    exact ih m1 hrest (convStep_buffers_mono pw c i mem m1 b hs hb)

/-- A run over indices all different from `i` leaves slot `i` alone. -/
theorem convRun_getD_not_mem (pw : List Nat) (c : Nat) (js : List Nat)
    (mem mem2 : ConvMem) (i : Nat) (hi : ∀ j ∈ js, j ≠ i)
    (h : convRun pw c js mem = Except.ok mem2) :
    mem2.respArr.getD i zeroedResponse = mem.respArr.getD i zeroedResponse := by
  induction js generalizing mem with
  | nil =>
    simp only [convRun, Except.ok.injEq] at h
    subst h
    rfl
  | cons j js ih =>
    obtain ⟨m1, hs, hrest⟩ := convRun_cons pw c j js mem mem2 h
    have h1 := ih m1 (fun k hk => hi k (List.mem_cons_of_mem j hk)) hrest
    have h2 := convStep_getD_ne pw c j i mem m1 hs
      (Ne.symm (hi j (List.mem_cons_self j js)))
    exact h1.trans h2

/-! ## Characterization lemmas -/

/-- Exact behaviour of one loop iteration when `calloc` succeeded. -/
theorem convStep_spec (pw : List Nat) (c i : Nat) (hc : c ≠ 0)
    (mem : ConvMem) :
    convStep pw c i mem =
      if (mem.messages.getD i defaultMessage).msg_style
          = PAM_PROMPT_ECHO_OFF then
        Except.ok { mem with
          respArr := mem.respArr.set i ⟨mem.nheap.next + 1, 0⟩,
          nheap := ⟨mem.nheap.next + 1,
            mem.nheap.buffers ++ [(mem.nheap.next + 1, pw)]⟩ }
      else Except.ok mem := by
  by_cases hstyle : (mem.messages.getD i defaultMessage).msg_style
      = PAM_PROMPT_ECHO_OFF <;>
    simp [convStep, STRDUP, hstyle, hc]

/-- When `calloc` succeeded the loop cannot fault. -/
theorem convRun_ok_of_calloc_ne (pw : List Nat) (c : Nat) (hc : c ≠ 0)
    (js : List Nat) : ∀ mem, ∃ mem2, convRun pw c js mem = Except.ok mem2 := by
  induction js with
  | nil => exact fun mem => ⟨mem, rfl⟩
  | cons i js ih =>
    intro mem
    by_cases hstyle : (mem.messages.getD i defaultMessage).msg_style
        = PAM_PROMPT_ECHO_OFF
    · obtain ⟨mem2, h2⟩ := ih { mem with
        respArr := mem.respArr.set i ⟨mem.nheap.next + 1, 0⟩,
        nheap := ⟨mem.nheap.next + 1,
          mem.nheap.buffers ++ [(mem.nheap.next + 1, pw)]⟩ }
      refine ⟨mem2, ?_⟩
      unfold convRun
      rw [convStep_spec pw c i hc mem, if_pos hstyle]
      exact h2
    · obtain ⟨mem2, h2⟩ := ih mem
      refine ⟨mem2, ?_⟩
      unfold convRun
      rw [convStep_spec pw c i hc mem, if_neg hstyle]
      exact h2

/-- Stored response addresses stay bounded by the allocator counter
across a run. -/
theorem convRun_bound (pw : List Nat) (c : Nat) (js : List Nat)
    (mem mem2 : ConvMem) (h : convRun pw c js mem = Except.ok mem2)
    (hb : ∀ r ∈ mem.respArr, r.resp ≤ mem.nheap.next) :
    ∀ r ∈ mem2.respArr, r.resp ≤ mem2.nheap.next := by
  induction js generalizing mem with
  | nil =>
    simp only [convRun, Except.ok.injEq] at h
    subst h
    exact hb
  | cons i js ih =>
    obtain ⟨m1, hs, hrest⟩ := convRun_cons pw c i js mem mem2 h
    exact ih m1 hrest (convStep_bound pw c i mem m1 hs hb)

/-- Each answered password prompt adds exactly one buffer: a successful
run grows the buffer list by the number of prompt-echo-off indices it
visited. -/
theorem convRun_buffers_length (pw : List Nat) (c : Nat) (hc : c ≠ 0)
    (js : List Nat) (mem mem2 : ConvMem)
    (h : convRun pw c js mem = Except.ok mem2) :
    mem2.nheap.buffers.length = mem.nheap.buffers.length +
      js.countP (fun k =>
        (mem.messages.getD k defaultMessage).msg_style
          == PAM_PROMPT_ECHO_OFF) := by
  induction js generalizing mem with
  | nil =>
    simp only [convRun, Except.ok.injEq] at h
    subst h
    simp
  | cons i js ih =>
    obtain ⟨m1, hs, hrest⟩ := convRun_cons pw c i js mem mem2 h
    have hmsg1 : m1.messages = mem.messages := convStep_messages pw c i mem m1 hs
    have hrec := ih m1 hrest
    rw [hmsg1] at hrec
    rw [convStep_spec pw c i hc mem] at hs
    rw [List.countP_cons]
    by_cases hstyle : (mem.messages.getD i defaultMessage).msg_style
        = PAM_PROMPT_ECHO_OFF
    · rw [if_pos hstyle] at hs
      simp only [Except.ok.injEq] at hs
      have hb : m1.nheap.buffers.length = mem.nheap.buffers.length + 1 := by
        rw [← hs]
        simp
      have hpi : ((mem.messages.getD i defaultMessage).msg_style
          == PAM_PROMPT_ECHO_OFF) = true := beq_iff_eq.mpr hstyle
      rw [hrec, hb]
      simp only [hpi, if_true]
      omega
    · rw [if_neg hstyle] at hs
      simp only [Except.ok.injEq] at hs
      rw [← hs] at hrec
      rw [hrec]
      have hpi : ((mem.messages.getD i defaultMessage).msg_style
          == PAM_PROMPT_ECHO_OFF) = false := beq_eq_false_iff_ne.mpr hstyle
      simp [hpi]
      rw [List.getD_eq_getElem?_getD] at hstyle
      exact hstyle

/-- `List.range n` split at an index `i < n`. -/
theorem range_split (i n : Nat) (hi : i < n) :
    List.range n = List.range' 0 i ++ i :: List.range' (i + 1) (n - i - 1) := by
  have h0 : n - i - 1 + 1 = n - i := by omega
  have h1 : List.range' i (n - i) = i :: List.range' (i + 1) (n - i - 1) := by
    have hr := List.range'_succ i (n - i - 1) 1
    rw [h0] at hr
    exact hr
  have h2 : List.range' 0 i ++ List.range' (0 + i) (n - i)
      = List.range' 0 (n - i + i) := List.range'_append_1 0 i (n - i)
  have h3 : n - i + i = n := by omega
  calc List.range n = List.range' 0 n := List.range_eq_range' n
    _ = List.range' 0 (n - i + i) := by rw [h3]
    _ = List.range' 0 i ++ List.range' (0 + i) (n - i) := h2.symm
    _ = List.range' 0 i ++ i :: List.range' (i + 1) (n - i - 1) := by
        rw [Nat.zero_add, h1]

/-- A slot of the freshly `calloc`-ed array is zeroed. -/
theorem getD_replicate_zeroed (n i : Nat) :
    (List.replicate n zeroedResponse).getD i zeroedResponse
      = zeroedResponse := by
  simp only [List.getD_eq_getElem?_getD, List.getElem?_replicate]
  split <;> rfl

/-- Destructor for a completed `my_conv` invocation: the loop ran to
completion over all indices from the zeroed array, the returned status
is 0 and the stored array address is the `calloc` result. -/
theorem my_conv_run (pw : List Nat) (c : Nat) (msgs : List PamMessage)
    (h : NativeHeap) (out : ConvOk)
    (hout : my_conv pw c msgs h = Except.ok out) :
    convRun pw c (List.range msgs.length)
        ⟨msgs, List.replicate msgs.length zeroedResponse, h⟩
      = Except.ok out.final ∧ out.status = 0 ∧ out.p_response = c := by
  unfold my_conv at hout
  split at hout
  · simp at hout
  · rename_i mem heq
    simp only [Except.ok.injEq] at hout
    subst hout
    exact ⟨heq, rfl, rfl⟩

/-- Master characterization of one response slot after a completed
`my_conv` with a successful array allocation: a `PAM_PROMPT_ECHO_OFF`
message got a fresh nonzero buffer holding a copy of the password and
return code 0; every other style left the slot zero-initialized. -/
theorem my_conv_slot (pw : List Nat) (c : Nat) (msgs : List PamMessage)
    (h : NativeHeap) (out : ConvOk) (i : Nat) (hc : c ≠ 0)
    (hout : my_conv pw c msgs h = Except.ok out) (hi : i < msgs.length) :
    ((msgs.getD i defaultMessage).msg_style ≠ PAM_PROMPT_ECHO_OFF →
      out.final.respArr.getD i zeroedResponse = zeroedResponse) ∧
    ((msgs.getD i defaultMessage).msg_style = PAM_PROMPT_ECHO_OFF →
      ∃ a, out.final.respArr.getD i zeroedResponse = ⟨a, 0⟩ ∧ a ≠ 0 ∧
        (a, pw) ∈ out.final.nheap.buffers) := by
  obtain ⟨hrun, -, -⟩ := my_conv_run pw c msgs h out hout
  rw [range_split i msgs.length hi] at hrun
  obtain ⟨m1, h1, h2⟩ := convRun_append_ok pw c _ _ _ _ hrun
  obtain ⟨m2, hstep, h3⟩ := convRun_cons pw c i _ m1 out.final h2
  have hm1msg : m1.messages = msgs := convRun_messages pw c _ _ m1 h1
  have hm1len : m1.respArr.length = msgs.length := by
    have hl := convRun_length pw c _ _ m1 h1
    simpa using hl
  have hm1slot : m1.respArr.getD i zeroedResponse = zeroedResponse := by
    have hni : ∀ j ∈ List.range' 0 i, j ≠ i := by
      intro j hj
      have hj' := List.mem_range'_1.1 hj
      omega
    have hkeep0 := convRun_getD_not_mem pw c _ _ m1 i hni h1
    rw [hkeep0]
    exact getD_replicate_zeroed msgs.length i
  have htail : ∀ j ∈ List.range' (i + 1) (msgs.length - i - 1), j ≠ i := by
    intro j hj
    have hj' := List.mem_range'_1.1 hj
    omega
  rw [convStep_spec pw c i hc m1, hm1msg] at hstep
  constructor
  · intro hstyle
    rw [if_neg hstyle] at hstep
    simp only [Except.ok.injEq] at hstep
    have hkeep := convRun_getD_not_mem pw c _ m2 out.final i htail h3
    rw [hkeep, ← hstep, hm1slot]
  · intro hstyle
    rw [if_pos hstyle] at hstep
    simp only [Except.ok.injEq] at hstep
    refine ⟨m1.nheap.next + 1, ?_, Nat.succ_ne_zero _, ?_⟩
    · have hkeep := convRun_getD_not_mem pw c _ m2 out.final i htail h3
      have hilen : i < m1.respArr.length := by
        rw [hm1len]
        exact hi
      rw [hkeep, ← hstep]
      simp [List.getD_eq_getElem?_getD, List.getElem?_set_self, hilen]
    · have hmem2 : (m1.nheap.next + 1, pw) ∈ m2.nheap.buffers := by
        rw [← hstep]
        simp
      exact convRun_buffers_mono pw c _ m2 out.final _ h3 hmem2

/-- Indexed iteration over the whole message list counts the same
prompts as direct iteration. -/
theorem countP_range_getD (msgs : List PamMessage) (p : PamMessage → Bool) :
    (List.range msgs.length).countP (fun k => p (msgs.getD k defaultMessage))
      = msgs.countP p := by
  induction msgs with
  | nil => rfl
  | cons m ms ih =>
    rw [List.length_cons, List.range_succ_eq_map, List.countP_cons,
      List.countP_map]
    have hcg : (List.range ms.length).countP
        ((fun k => p ((m :: ms).getD k defaultMessage)) ∘ Nat.succ)
        = (List.range ms.length).countP
          (fun k => p (ms.getD k defaultMessage)) := rfl
    rw [hcg, ih, List.countP_cons]
    rfl

/-- Specialization of `countP_range_getD` to the password-prompt
predicate. -/
theorem countP_range_echoOff (msgs : List PamMessage) :
    (List.range msgs.length).countP (fun k =>
        (msgs.getD k defaultMessage).msg_style == PAM_PROMPT_ECHO_OFF)
      = msgs.countP (fun m => m.msg_style == PAM_PROMPT_ECHO_OFF) :=
  countP_range_getD msgs (fun m => m.msg_style == PAM_PROMPT_ECHO_OFF)

/-- Indexed iteration over the whole message list sees a prompt iff the
message list contains one. -/
theorem any_range_getD (msgs : List PamMessage) (p : PamMessage → Bool) :
    (List.range msgs.length).any (fun k => p (msgs.getD k defaultMessage))
      = msgs.any p := by
  induction msgs with
  | nil => rfl
  | cons m ms ih =>
    rw [List.length_cons, List.range_succ_eq_map, List.any_cons,
      List.any_map]
    have hcg : (List.range ms.length).any
        ((fun k => p ((m :: ms).getD k defaultMessage)) ∘ Nat.succ)
        = (List.range ms.length).any
          (fun k => p (ms.getD k defaultMessage)) := rfl
    rw [hcg, ih, List.any_cons]
    rfl

/-- Specialization of `any_range_getD` to the password-prompt
predicate. -/
theorem any_range_echoOff (msgs : List PamMessage) :
    (List.range msgs.length).any (fun k =>
        (msgs.getD k defaultMessage).msg_style == PAM_PROMPT_ECHO_OFF)
      = msgs.any (fun m => m.msg_style == PAM_PROMPT_ECHO_OFF) :=
  any_range_getD msgs (fun m => m.msg_style == PAM_PROMPT_ECHO_OFF)

/-- Behaviour of the loop when `calloc` returned NULL: if any visited
index is a password prompt the write through the NULL array pointer
faults; otherwise nothing is written at all and the run succeeds with
the memory untouched. -/
theorem convRun_calloc0 (pw : List Nat) (js : List Nat) :
    ∀ mem, convRun pw 0 js mem =
      if js.any (fun k => (mem.messages.getD k defaultMessage).msg_style
          == PAM_PROMPT_ECHO_OFF)
        then Except.error ConvError.nullPointerAccess
        else Except.ok mem := by
  induction js with
  | nil => exact fun mem => rfl
  | cons i js ih =>
    intro mem
    by_cases hstyle : (mem.messages.getD i defaultMessage).msg_style
        = PAM_PROMPT_ECHO_OFF
    · have hstep : convStep pw 0 i mem
          = Except.error ConvError.nullPointerAccess := by
        unfold convStep
        rw [if_pos hstyle]
        rfl
      have hpi : ((mem.messages.getD i defaultMessage).msg_style
          == PAM_PROMPT_ECHO_OFF) = true := beq_iff_eq.mpr hstyle
      unfold convRun
      rw [hstep, List.any_cons, hpi, Bool.true_or, if_pos rfl]
    · have hstep : convStep pw 0 i mem = Except.ok mem := by
        unfold convStep
        rw [if_neg hstyle]
      have hpi : ((mem.messages.getD i defaultMessage).msg_style
          == PAM_PROMPT_ECHO_OFF) = false := beq_eq_false_iff_ne.mpr hstyle
      unfold convRun
      rw [hstep]
      show convRun pw 0 js mem = _
      rw [ih mem, List.any_cons, hpi, Bool.false_or]

/-- A valid index reads a member of the list. -/
theorem getD_mem_of_lt (l : List PamResponse) (i : Nat) (hi : i < l.length) :
    l.getD i zeroedResponse ∈ l := by
  rw [List.getD_eq_getElem?_getD, List.getElem?_eq_getElem hi]
  exact List.getElem_mem hi

/-- The buffer answering a later prompt has a strictly larger address
than whatever an earlier slot holds: addresses are handed out in
increasing order while slot contents stay bounded by the counter. -/
theorem my_conv_slot_lt (pw : List Nat) (c : Nat) (msgs : List PamMessage)
    (h : NativeHeap) (out : ConvOk) (i j : Nat) (hc : c ≠ 0)
    (hout : my_conv pw c msgs h = Except.ok out) (hij : i < j)
    (hj : j < msgs.length)
    (hsj : (msgs.getD j defaultMessage).msg_style = PAM_PROMPT_ECHO_OFF) :
    (out.final.respArr.getD i zeroedResponse).resp
      < (out.final.respArr.getD j zeroedResponse).resp := by
  obtain ⟨hrun, -, -⟩ := my_conv_run pw c msgs h out hout
  rw [range_split j msgs.length hj] at hrun
  obtain ⟨m1, h1, h2⟩ := convRun_append_ok pw c _ _ _ _ hrun
  obtain ⟨m2, hstep, h3⟩ := convRun_cons pw c j _ m1 out.final h2
  have hm1msg : m1.messages = msgs := convRun_messages pw c _ _ m1 h1
  have hm1len : m1.respArr.length = msgs.length := by
    have hl := convRun_length pw c _ _ m1 h1
    simpa using hl
  have hbound : ∀ r ∈ m1.respArr, r.resp ≤ m1.nheap.next := by
    apply convRun_bound pw c _ _ m1 h1
    intro r hr
    have hrz : r = zeroedResponse := List.eq_of_mem_replicate hr
    subst hrz
    exact Nat.zero_le _
  rw [convStep_spec pw c j hc m1, hm1msg, if_pos hsj] at hstep
  simp only [Except.ok.injEq] at hstep
  have hjlen : j < m1.respArr.length := by
    rw [hm1len]
    exact hj
  have hslotj2 : m2.respArr.getD j zeroedResponse
      = ⟨m1.nheap.next + 1, 0⟩ := by
    rw [← hstep]
    simp [List.getD_eq_getElem?_getD, List.getElem?_set_self, hjlen]
  have hsloti2 : m2.respArr.getD i zeroedResponse
      = m1.respArr.getD i zeroedResponse := by
    rw [← hstep]
    simp [List.getD_eq_getElem?_getD, List.getElem?_set_ne (ne_of_gt hij)]
  have htaili : ∀ k ∈ List.range' (j + 1) (msgs.length - j - 1), k ≠ i := by
    intro k hk
    have hk' := List.mem_range'_1.1 hk
    omega
  have htailj : ∀ k ∈ List.range' (j + 1) (msgs.length - j - 1), k ≠ j := by
    intro k hk
    have hk' := List.mem_range'_1.1 hk
    omega
  have hfi := convRun_getD_not_mem pw c _ m2 out.final i htaili h3
  have hfj := convRun_getD_not_mem pw c _ m2 out.final j htailj h3
  rw [hfi, hfj, hslotj2, hsloti2]
  have hilen : i < m1.respArr.length := by
    rw [hm1len]
    omega
  exact Nat.lt_succ_of_le (hbound _ (getD_mem_of_lt m1.respArr i hilen))

/-! ## Conversation-handler theorems -/

/-- C3: for every in-range index of the message array, a
`PAM_PROMPT_ECHO_OFF` message gets a freshly duplicated copy of the
closed-over password bytes as its response text with return code 0,
and a message of any other style leaves its slot zeroed (null text,
return code 0). -/
theorem my_conv_prompt_answered (pw : List Nat) (c : Nat)
    (msgs : List PamMessage) (h : NativeHeap) (out : ConvOk) (i : Nat)
    (hc : c ≠ 0) (hout : my_conv pw c msgs h = Except.ok out)
    (hi : i < msgs.length) :
    ((msgs.getD i defaultMessage).msg_style = PAM_PROMPT_ECHO_OFF →
      ∃ a, out.final.respArr.getD i zeroedResponse = ⟨a, 0⟩ ∧ a ≠ 0 ∧
        (a, pw) ∈ out.final.nheap.buffers) ∧
    ((msgs.getD i defaultMessage).msg_style ≠ PAM_PROMPT_ECHO_OFF →
      out.final.respArr.getD i zeroedResponse = zeroedResponse) :=
  ⟨(my_conv_slot pw c msgs h out i hc hout hi).2,
    (my_conv_slot pw c msgs h out i hc hout hi).1⟩

/-- Witness for C3 at the concrete run `my_conv [112] 5 msgs3 ⟨0,[]⟩`,
index 0 (a password prompt). -/
theorem my_conv_prompt_answered_witness :
    (5 : Nat) ≠ 0 ∧
    my_conv [112] 5 msgs3 ⟨0, []⟩ = Except.ok outc3 ∧
    0 < msgs3.length ∧
    (((msgs3.getD 0 defaultMessage).msg_style = PAM_PROMPT_ECHO_OFF →
      ∃ a, outc3.final.respArr.getD 0 zeroedResponse = ⟨a, 0⟩ ∧ a ≠ 0 ∧
        (a, [112]) ∈ outc3.final.nheap.buffers) ∧
    ((msgs3.getD 0 defaultMessage).msg_style ≠ PAM_PROMPT_ECHO_OFF →
      outc3.final.respArr.getD 0 zeroedResponse = zeroedResponse)) :=
  ⟨by decide, rfl, by decide,
    my_conv_prompt_answered [112] 5 msgs3 ⟨0, []⟩ outc3 0 (by decide) rfl
      (by decide)⟩

/-- C5: whenever the array allocation succeeds, one invocation of the
handler produces a response array of exactly `messages.length` slots
(also for zero messages), stores the array address into the
out-parameter, and every slot is written: zeroed for unanswered
messages, an answered record otherwise. -/
theorem my_conv_response_array (pw : List Nat) (c : Nat)
    (msgs : List PamMessage) (h : NativeHeap) (hc : c ≠ 0) :
    ∃ out, my_conv pw c msgs h = Except.ok out ∧
      out.p_response = c ∧
      out.final.respArr.length = msgs.length ∧
      ∀ i, i < msgs.length →
        out.final.respArr.getD i zeroedResponse = zeroedResponse ∨
        ∃ a, a ≠ 0 ∧
          out.final.respArr.getD i zeroedResponse = ⟨a, 0⟩ := by
  obtain ⟨mem2, hrun⟩ := convRun_ok_of_calloc_ne pw c hc
    (List.range msgs.length)
    ⟨msgs, List.replicate msgs.length zeroedResponse, h⟩
  have hout : my_conv pw c msgs h = Except.ok ⟨0, c, mem2⟩ := by
    unfold my_conv
    rw [hrun]
  refine ⟨⟨0, c, mem2⟩, hout, rfl, ?_, ?_⟩
  · have hl := convRun_length pw c _ _ mem2 hrun
    simpa using hl
  · intro i hi
    by_cases hstyle : (msgs.getD i defaultMessage).msg_style
        = PAM_PROMPT_ECHO_OFF
    · obtain ⟨a, ha1, ha2, -⟩ :=
        (my_conv_slot pw c msgs h ⟨0, c, mem2⟩ i hc hout hi).2 hstyle
      exact Or.inr ⟨a, ha2, ha1⟩
    · exact Or.inl
        ((my_conv_slot pw c msgs h ⟨0, c, mem2⟩ i hc hout hi).1 hstyle)

/-- Witness for C5 at the empty message array: a zero-length response
array is produced and success returned. -/
theorem my_conv_response_array_witness :
    (5 : Nat) ≠ 0 ∧
    ∃ out, my_conv [112] 5 [] ⟨0, []⟩ = Except.ok out ∧
      out.p_response = 5 ∧
      out.final.respArr.length = List.length ([] : List PamMessage) ∧
      ∀ i, i < List.length ([] : List PamMessage) →
        out.final.respArr.getD i zeroedResponse = zeroedResponse ∨
        ∃ a, a ≠ 0 ∧
          out.final.respArr.getD i zeroedResponse = ⟨a, 0⟩ :=
  ⟨by decide, my_conv_response_array [112] 5 [] ⟨0, []⟩ (by decide)⟩

/-- C8: a message slot whose style is not `PAM_PROMPT_ECHO_OFF`
(`PAM_TEXT_INFO`, `PAM_ERROR_MSG`, ...) ends with a null text pointer:
no password bytes are referenced from it. -/
theorem my_conv_nonprompt_no_secret (pw : List Nat) (c : Nat)
    (msgs : List PamMessage) (h : NativeHeap) (out : ConvOk) (i : Nat)
    (hc : c ≠ 0) (hout : my_conv pw c msgs h = Except.ok out)
    (hi : i < msgs.length)
    (hstyle : (msgs.getD i defaultMessage).msg_style
      ≠ PAM_PROMPT_ECHO_OFF) :
    (out.final.respArr.getD i zeroedResponse).resp = 0 := by
  have hz := (my_conv_slot pw c msgs h out i hc hout hi).1 hstyle
  rw [hz]
  rfl

/-- Witness for C8 at the concrete run, index 1 (`PAM_TEXT_INFO`). -/
theorem my_conv_nonprompt_no_secret_witness :
    (5 : Nat) ≠ 0 ∧
    my_conv [112] 5 msgs3 ⟨0, []⟩ = Except.ok outc3 ∧
    1 < msgs3.length ∧
    (msgs3.getD 1 defaultMessage).msg_style ≠ PAM_PROMPT_ECHO_OFF ∧
    (outc3.final.respArr.getD 1 zeroedResponse).resp = 0 :=
  ⟨by decide, rfl, by decide, by decide,
    my_conv_nonprompt_no_secret [112] 5 msgs3 ⟨0, []⟩ outc3 1 (by decide)
      rfl (by decide) (by decide)⟩

/-- C9: the handler never modifies the incoming message array: after a
completed invocation the message records (style and text) are exactly
the ones it was entered with. -/
theorem my_conv_messages_readonly (pw : List Nat) (c : Nat)
    (msgs : List PamMessage) (h : NativeHeap) (out : ConvOk)
    (hout : my_conv pw c msgs h = Except.ok out) :
    out.final.messages = msgs := by
  obtain ⟨hrun, -, -⟩ := my_conv_run pw c msgs h out hout
  exact convRun_messages pw c _ _ _ hrun

/-- Witness for C9 at the concrete run. -/
theorem my_conv_messages_readonly_witness :
    my_conv [112] 5 msgs3 ⟨0, []⟩ = Except.ok outc3 ∧
    outc3.final.messages = msgs3 :=
  ⟨rfl, my_conv_messages_readonly [112] 5 msgs3 ⟨0, []⟩ outc3 rfl⟩

/-- C10: in one completed handler invocation the string duplication ran
exactly once per `PAM_PROMPT_ECHO_OFF` message (the buffer list grew by
exactly that count), and two distinct answered prompt slots never share
a buffer: their response addresses differ. -/
theorem my_conv_strdup_fresh (pw : List Nat) (c : Nat)
    (msgs : List PamMessage) (h : NativeHeap) (out : ConvOk) (i j : Nat)
    (hc : c ≠ 0) (hout : my_conv pw c msgs h = Except.ok out)
    (hi : i < msgs.length) (hj : j < msgs.length) (hij : i ≠ j)
    (hsi : (msgs.getD i defaultMessage).msg_style = PAM_PROMPT_ECHO_OFF)
    (hsj : (msgs.getD j defaultMessage).msg_style = PAM_PROMPT_ECHO_OFF) :
    out.final.nheap.buffers.length = h.buffers.length +
      msgs.countP (fun m => m.msg_style == PAM_PROMPT_ECHO_OFF) ∧
    (out.final.respArr.getD i zeroedResponse).resp ≠
      (out.final.respArr.getD j zeroedResponse).resp := by
  constructor
  · obtain ⟨hrun, -, -⟩ := my_conv_run pw c msgs h out hout
    have hcount := convRun_buffers_length pw c hc
      (List.range msgs.length) _ out.final hrun
    have hm0 : (⟨msgs, List.replicate msgs.length zeroedResponse, h⟩
        : ConvMem).messages = msgs := rfl
    have hh0 : (⟨msgs, List.replicate msgs.length zeroedResponse, h⟩
        : ConvMem).nheap = h := rfl
    rw [hm0, hh0, countP_range_echoOff msgs] at hcount
    exact hcount
  · rcases Nat.lt_or_ge i j with hlt | hge
    · exact ne_of_lt (my_conv_slot_lt pw c msgs h out i j hc hout hlt hj hsj)
    · have hlt : j < i := Nat.lt_of_le_of_ne hge (Ne.symm hij)
      exact (ne_of_lt
        (my_conv_slot_lt pw c msgs h out j i hc hout hlt hi hsi)).symm

/-- Witness for C10 at the concrete run: two prompts, two buffers,
addresses 1 and 2. -/
theorem my_conv_strdup_fresh_witness :
    (5 : Nat) ≠ 0 ∧
    my_conv [112] 5 msgs3 ⟨0, []⟩ = Except.ok outc3 ∧
    0 < msgs3.length ∧ 2 < msgs3.length ∧ (0 : Nat) ≠ 2 ∧
    (msgs3.getD 0 defaultMessage).msg_style = PAM_PROMPT_ECHO_OFF ∧
    (msgs3.getD 2 defaultMessage).msg_style = PAM_PROMPT_ECHO_OFF ∧
    (outc3.final.nheap.buffers.length =
      (⟨0, []⟩ : NativeHeap).buffers.length +
        msgs3.countP (fun m => m.msg_style == PAM_PROMPT_ECHO_OFF) ∧
    (outc3.final.respArr.getD 0 zeroedResponse).resp ≠
      (outc3.final.respArr.getD 2 zeroedResponse).resp) :=
  ⟨by decide, rfl, by decide, by decide, by decide, by decide, by decide,
    my_conv_strdup_fresh [112] 5 msgs3 ⟨0, []⟩ outc3 0 2 (by decide) rfl
      (by decide) (by decide) (by decide) (by decide) (by decide)⟩

/-- Counterexample to C6 as stated: the allocator returned NULL for the
response array, yet the handler signals no allocation failure at all —
it stores the null address and reports success (status 0). -/
theorem my_conv_null_calloc_no_failure_signal :
    my_conv [7] 0 [⟨PAM_TEXT_INFO, []⟩] ⟨0, []⟩
      = Except.ok ⟨0, 0, ⟨[⟨PAM_TEXT_INFO, []⟩],
          [zeroedResponse], ⟨0, []⟩⟩⟩ := rfl

/-- C6 as amended: the adapter performs no null check.  When the array
allocator returns NULL the handler still stores the null address and
returns success, unless some message is a `PAM_PROMPT_ECHO_OFF` prompt,
in which case the write through the NULL array pointer aborts the
invocation with an uncaught null-pointer error — not a signalled
allocation failure. -/
theorem my_conv_null_calloc_unchecked (pw : List Nat)
    (msgs : List PamMessage) (h : NativeHeap) :
    my_conv pw 0 msgs h =
      if msgs.any (fun m => m.msg_style == PAM_PROMPT_ECHO_OFF)
        then Except.error ConvError.nullPointerAccess
        else Except.ok ⟨0, 0,
          ⟨msgs, List.replicate msgs.length zeroedResponse, h⟩⟩ := by
  have hrun := convRun_calloc0 pw (List.range msgs.length)
    ⟨msgs, List.replicate msgs.length zeroedResponse, h⟩
  have hm0 : (⟨msgs, List.replicate msgs.length zeroedResponse, h⟩
      : ConvMem).messages = msgs := rfl
  rw [hm0, any_range_echoOff msgs] at hrun
  unfold my_conv
  rw [hrun]
  by_cases hany : msgs.any (fun m => m.msg_style == PAM_PROMPT_ECHO_OFF)
      = true
  · rw [if_pos hany, if_pos hany]
  · rw [if_neg hany, if_neg hany]

/-- Counterexample to C7 as stated: with a NULL array allocation and a
password prompt present, the handler does not return status 0 — the
write through the NULL array pointer raises instead. -/
theorem my_conv_faults_on_null_calloc :
    my_conv [7] 0 [⟨PAM_PROMPT_ECHO_OFF, []⟩] ⟨0, []⟩
      = Except.error ConvError.nullPointerAccess := rfl

/-- C7 as amended: whenever the handler returns at all, it returns
status 0 — there is no failure-reporting path in its code. -/
theorem my_conv_returns_zero (pw : List Nat) (c : Nat)
    (msgs : List PamMessage) (h : NativeHeap) (out : ConvOk)
    (hout : my_conv pw c msgs h = Except.ok out) : out.status = 0 :=
  (my_conv_run pw c msgs h out hout).2.1

/-- Witness for the amended C7 at the concrete run. -/
theorem my_conv_returns_zero_witness :
    my_conv [112] 5 msgs3 ⟨0, []⟩ = Except.ok outc3 ∧ outc3.status = 0 :=
  ⟨rfl, my_conv_returns_zero [112] 5 msgs3 ⟨0, []⟩ outc3 rfl⟩
